import Mathlib

/-!
Shallow embedding of the sonna-mlh voice-assistant backend
(src/backend/services/conversation_service.py, src/backend/services/user_service.py,
src/backend/routers/conversation.py, src/backend/routers/tts.py,
src/backend/routers/voice.py), together with theorems settling the frozen
claims about its conversation-orchestration logic.

Timestamps are modelled as integers (seconds); the SQLAlchemy models module is
not part of the provided sources, so column defaults (creation timestamps set
at insert time) are modelled from the specification where noted.
-/

namespace Sonna

/-- Preference values stored in the user preference mapping: either a plain
string (for example the timezone) or a list of strings (interests, goals, and
similar fields iterated by format_user_context). -/
inductive PrefValue where
  | str (s : String)
  | listv (l : List String)
deriving DecidableEq, Repr

/-- User row. Modelled from the spec: the models module is absent from the
sources; fields follow section 3 of the spec (identity plus a free-form
preference mapping). -/
structure User where
  id : Nat
  name : String
  email : String
  preferences : List (String × PrefValue)
deriving DecidableEq, Repr

/-- Conversation row. Modelled from the spec: the models module is absent from
the sources; updated_at is the last-activity timestamp and defaults to the
creation instant when a row is created (spec section 4.1). -/
structure Conversation where
  id : Nat
  user_id : Nat
  title : String
  created_at : Int
  updated_at : Int
  extra_data : List (String × String)
deriving DecidableEq, Repr

/-- Message row. Modelled from the spec: the models module is absent from
the sources; created_at defaults to the insert instant (spec section 3). -/
structure Message where
  id : Nat
  conversation_id : Nat
  role : String
  content : String
  audio_file_path : Option String
  extra_data : List (String × String)
  created_at : Int
deriving DecidableEq, Repr

/-- The relational store: users, conversations and messages. -/
structure DB where
  users : List User
  conversations : List Conversation
  messages : List Message
deriving DecidableEq, Repr

/-- Update the first element satisfying p (the embedding of a query
first() followed by an attribute mutation and commit). -/
def updateFirst {α : Type} (p : α → Bool) (f : α → α) : List α → List α
  | [] => []
  | x :: xs => if p x then f x :: xs else x :: updateFirst p f xs

def maxUserId (l : List User) : Nat :=
  l.foldr (fun u m => max u.id m) 0

def maxConvId (l : List Conversation) : Nat :=
  l.foldr (fun c m => max c.id m) 0

def maxMsgId (l : List Message) : Nat :=
  l.foldr (fun m acc => max m.id acc) 0

def freshUserId (db : DB) : Nat := maxUserId db.users + 1

def freshConvId (db : DB) : Nat := maxConvId db.conversations + 1

def freshMsgId (db : DB) : Nat := maxMsgId db.messages + 1

/-- Python str.startswith, character-wise (evaluable in the kernel, unlike
the byte-position based library function). -/
def strStartsWith (s pre : String) : Bool :=
  pre.data.isPrefixOf s.data

/-- Python slicing s[:n], character-wise. -/
def strTake (s : String) (n : Nat) : String :=
  String.mk (s.data.take n)

/-- Python str.strip: drop leading and trailing whitespace, character-wise. -/
def strTrim (s : String) : String :=
  String.mk (((s.data.dropWhile Char.isWhitespace).reverse.dropWhile Char.isWhitespace).reverse)

/-- Zero-padded two-digit rendering, as strftime produces. -/
def pad2 (n : Nat) : String :=
  if n < 10 then "0" ++ toString n else toString n

/-- strftime with percent-I colon percent-M space percent-p applied to a
timestamp in seconds: 12-hour clock with AM or PM marker. -/
def formatClock12 (now : Int) : String :=
  let s := (now % 86400).toNat
  let h24 := s / 3600
  let m := (s % 3600) / 60
  let h12 := if h24 % 12 = 0 then 12 else h24 % 12
  let ampm := if h24 < 12 then "AM" else "PM"
  pad2 h12 ++ ":" ++ pad2 m ++ " " ++ ampm

/-- The auto-generated placeholder title of a fresh conversation
(conversation_service.py line 39). -/
def placeholderTitle (now : Int) : String :=
  "Conversation at " ++ formatClock12 now

/-- Conversations of the user whose updated_at falls within the 2-hour
active window (the filter of the query in get_or_create_active_conversation,
conversation_service.py lines 25-33). -/
def activeConversations (db : DB) (user_id : Nat) (now : Int) : List Conversation :=
  db.conversations.filter (fun c => c.user_id == user_id && decide (now - 7200 ≤ c.updated_at))

/-- order_by desc(updated_at) followed by first(): an element of maximal
updated_at (the earliest such element in table order when tied). -/
def pickMostRecent : List Conversation → Option Conversation
  | [] => none
  | c :: cs =>
    match pickMostRecent cs with
    | none => some c
    | some d => if d.updated_at > c.updated_at then some d else some c

/-- The conversation row created when no active conversation exists
(conversation_service.py lines 36-44); its updated_at defaults to the
creation instant (modelled from the spec, the models module being absent). -/
def newConversation (db : DB) (user_id : Nat) (now : Int) : Conversation :=
  { id := freshConvId db
    user_id := user_id
    title := placeholderTitle now
    created_at := now
    updated_at := now
    extra_data := [("source", "voice")] }

/-- conversation_service.get_or_create_active_conversation: return the most
recently updated conversation of the user inside the 2-hour window, or create
a new one with the placeholder title. -/
def get_or_create_active_conversation (db : DB) (user_id : Nat) (now : Int) :
    Conversation × DB :=
  match pickMostRecent (activeConversations db user_id now) with
  | some conversation => (conversation, db)
  | none =>
    let conversation := newConversation db user_id now
    (conversation, { db with conversations := db.conversations ++ [conversation] })

/-- conversation_service.add_message: insert the message row and set the
updated_at of the parent conversation to now in the same commit; the parent
is looked up with query first() and silently skipped when absent. The
created_at default (insert instant) is modelled from the spec, the models
module being absent. -/
def add_message (db : DB) (conversation_id : Nat) (role content : String)
    (audio_file_path : Option String) (metadata : Option (List (String × String)))
    (now : Int) : Message × DB :=
  let message : Message :=
    { id := freshMsgId db
      conversation_id := conversation_id
      role := role
      content := content
      audio_file_path := audio_file_path
      extra_data := metadata.getD []
      created_at := now }
  (message,
    { db with
      messages := db.messages ++ [message]
      conversations :=
        updateFirst (fun c => c.id == conversation_id)
          (fun c => { c with updated_at := now }) db.conversations })

/-- Insertion into a list sorted by descending created_at. -/
def insertByCreatedDesc (m : Message) : List Message → List Message
  | [] => [m]
  | x :: xs =>
    if m.created_at > x.created_at then m :: x :: xs else x :: insertByCreatedDesc m xs

/-- Sort by descending created_at (the order_by desc of
get_conversation_context). -/
def sortByCreatedDesc : List Message → List Message
  | [] => []
  | x :: xs => insertByCreatedDesc x (sortByCreatedDesc xs)

/-- A context entry handed to the response generator: role and content. -/
structure CtxMsg where
  role : String
  content : String
deriving DecidableEq, Repr

/-- conversation_service.get_conversation_context: the last limit messages of
the conversation in chronological order, projected to role and content. -/
def get_conversation_context (db : DB) (conversation_id : Nat) (limit : Nat) :
    List CtxMsg :=
  let messages :=
    (sortByCreatedDesc (db.messages.filter (fun m => m.conversation_id == conversation_id))).take limit
  (messages.reverse).map (fun m => { role := m.role, content := m.content })

/-- conversation_service.generate_conversation_title: rewrite the title from
the first message, truncated at 50 characters with an ellipsis appended when
truncated, only while the title still starts with the placeholder prefix. -/
def generate_conversation_title (db : DB) (conversation_id : Nat)
    (first_message : String) : DB :=
  match db.conversations.find? (fun c => c.id == conversation_id) with
  | some conversation =>
    if strStartsWith conversation.title "Conversation at" then
      let title :=
        strTake first_message 50 ++ (if first_message.length > 50 then "..." else "")
      { db with
        conversations :=
          updateFirst (fun c => c.id == conversation_id)
            (fun c => { c with title := title }) db.conversations }
    else db
  | none => db

/-! Helper lemmas about updateFirst and find?. -/

theorem updateFirst_cons_pos {α : Type} (p : α → Bool) (f : α → α) (x : α)
    (xs : List α) (hx : p x = true) :
    updateFirst p f (x :: xs) = f x :: xs := by
  simp [updateFirst, hx]

theorem updateFirst_cons_neg {α : Type} (p : α → Bool) (f : α → α) (x : α)
    (xs : List α) (hx : p x = false) :
    updateFirst p f (x :: xs) = x :: updateFirst p f xs := by
  simp [updateFirst, hx]

theorem updateFirst_find?_same {α : Type} (p : α → Bool) (f : α → α) :
    ∀ {l : List α} {a : α}, l.find? p = some a → p (f a) = true →
      (updateFirst p f l).find? p = some (f a) := by
  intro l
  induction l with
  | nil => intro a h _; simp [List.find?] at h
  | cons x xs ih =>
    intro a h hf
    cases hx : p x with
    | true =>
      rw [List.find?_cons_of_pos _ hx] at h
      cases h
      rw [updateFirst_cons_pos _ _ _ _ hx]
      exact List.find?_cons_of_pos _ hf
    | false =>
      rw [List.find?_cons_of_neg _ (by simp [hx])] at h
      rw [updateFirst_cons_neg _ _ _ _ hx]
      rw [List.find?_cons_of_neg _ (by simp [hx])]
      exact ih h hf

theorem updateFirst_eq_self {α : Type} (p : α → Bool) (f : α → α) :
    ∀ {l : List α} {a : α}, l.find? p = some a → f a = a →
      updateFirst p f l = l := by
  intro l
  induction l with
  | nil => intro a h _; simp [List.find?] at h
  | cons x xs ih =>
    intro a h hf
    cases hx : p x with
    | true =>
      rw [List.find?_cons_of_pos _ hx] at h
      cases h
      rw [updateFirst_cons_pos _ _ _ _ hx, hf]
    | false =>
      rw [List.find?_cons_of_neg _ (by simp [hx])] at h
      rw [updateFirst_cons_neg _ _ _ _ hx, ih h hf]

theorem updateFirst_of_find?_none {α : Type} (p : α → Bool) (f : α → α) :
    ∀ {l : List α}, l.find? p = none → updateFirst p f l = l := by
  intro l
  induction l with
  | nil => intro _; rfl
  | cons x xs ih =>
    intro h
    cases hx : p x with
    | true =>
      rw [List.find?_cons_of_pos _ hx] at h
      exact absurd h (by simp)
    | false =>
      rw [List.find?_cons_of_neg _ (by simp [hx])] at h
      rw [updateFirst_cons_neg _ _ _ _ hx, ih h]

/-- C6: a conversation still holding the auto-generated placeholder title is
retitled, by one call, to the first 50 characters of the candidate message
with an ellipsis appended exactly when the message is longer than 50
characters; calling the retitle operation again with the same candidate
leaves the database unchanged. -/
theorem C6_retitle_once_then_noop (db : DB) (cid : Nat) (t : String)
    (c : Conversation)
    (hfind : db.conversations.find? (fun x => x.id == cid) = some c)
    (htitle : strStartsWith c.title "Conversation at" = true) :
    (generate_conversation_title db cid t).conversations.find? (fun x => x.id == cid) =
      some { c with title := strTake t 50 ++ (if t.length > 50 then "..." else "") } ∧
    generate_conversation_title (generate_conversation_title db cid t) cid t =
      generate_conversation_title db cid t := by
  have hpc : ((fun x : Conversation => x.id == cid)
      ({ c with title := strTake t 50 ++ (if t.length > 50 then "..." else "") })) = true := by
    have := List.find?_some hfind
    simpa using this
  have hstep :
      (generate_conversation_title db cid t).conversations.find? (fun x => x.id == cid) =
        some { c with title := strTake t 50 ++ (if t.length > 50 then "..." else "") } := by
    unfold generate_conversation_title
    rw [hfind]
    simp only [htitle, if_true]
    exact updateFirst_find?_same _ _ hfind hpc
  refine ⟨hstep, ?_⟩
  generalize hdb1 : generate_conversation_title db cid t = db1 at hstep
  unfold generate_conversation_title
  rw [hstep]
  by_cases hsw :
      (strStartsWith
        (({ c with title := strTake t 50 ++ (if t.length > 50 then "..." else "") } :
          Conversation).title) "Conversation at") = true
  · simp only [hsw, if_true]
    have hid :
        updateFirst (fun x : Conversation => x.id == cid)
          (fun x => { x with title := strTake t 50 ++ (if t.length > 50 then "..." else "") })
          db1.conversations = db1.conversations :=
      updateFirst_eq_self _ _ hstep rfl
    exact congrArg (fun l => { db1 with conversations := l }) hid
  · simp [hsw]

set_option maxRecDepth 4000 in
/-- Witness for C6 at a concrete database: one conversation carrying the
placeholder title, retitled from a 60-character message. -/
theorem C6_retitle_once_then_noop_witness :
    (let db : DB :=
      { users := []
        conversations :=
          [{ id := 1, user_id := 1, title := "Conversation at 03:00 AM",
             created_at := 0, updated_at := 0, extra_data := [] }]
        messages := [] }
     let t := "abcdefghijklmnopqrstuvwxyzabcdefghijklmnopqrstuvwxyzabcdefgh"
     (generate_conversation_title db 1 t).conversations.find? (fun x => x.id == 1) =
       some { id := 1, user_id := 1,
              title := "abcdefghijklmnopqrstuvwxyzabcdefghijklmnopqrstuvwx...",
              created_at := 0, updated_at := 0, extra_data := [] } ∧
     generate_conversation_title (generate_conversation_title db 1 t) 1 t =
       generate_conversation_title db 1 t) := by
  have h := C6_retitle_once_then_noop
    { users := []
      conversations :=
        [{ id := 1, user_id := 1, title := "Conversation at 03:00 AM",
           created_at := 0, updated_at := 0, extra_data := [] }]
      messages := [] }
    1 "abcdefghijklmnopqrstuvwxyzabcdefghijklmnopqrstuvwxyzabcdefgh"
    { id := 1, user_id := 1, title := "Conversation at 03:00 AM",
      created_at := 0, updated_at := 0, extra_data := [] }
    (by decide) (by decide)
  refine ⟨?_, h.2⟩
  have h1 := h.1
  rw [h1]
  decide

/-- The most recently inserted message row of a conversation. -/
def lastMessageOf (db : DB) (conversation_id : Nat) : Option Message :=
  (db.messages.filter (fun m => m.conversation_id == conversation_id)).getLast?

/-- C5: after add_message on an existing conversation, the parent
last-activity timestamp of the parent equals the creation time of the most
recently added message of that conversation; both are written by the one
add_message call (the same transaction), the timestamp never being set
independently of the insert. -/
theorem C5_last_activity_tracks_message (db : DB) (cid : Nat)
    (role content : String) (afp : Option String)
    (md : Option (List (String × String))) (now : Int) (c : Conversation)
    (hfind : db.conversations.find? (fun x => x.id == cid) = some c) :
    ((add_message db cid role content afp md now).1).created_at = now ∧
    (add_message db cid role content afp md now).2.conversations.find?
        (fun x => x.id == cid) = some { c with updated_at := now } ∧
    lastMessageOf (add_message db cid role content afp md now).2 cid =
      some (add_message db cid role content afp md now).1 ∧
    ({ c with updated_at := now } : Conversation).updated_at =
      ((add_message db cid role content afp md now).1).created_at := by
  refine ⟨rfl, ?_, ?_, rfl⟩
  · have hpc : ((fun x : Conversation => x.id == cid)
        ({ c with updated_at := now })) = true := by
      have := List.find?_some hfind
      simpa using this
    exact updateFirst_find?_same _ _ hfind hpc
  · unfold lastMessageOf add_message
    simp [List.filter_append]

/-- Witness for C5: a database holding one conversation, to which one
message is added. -/
theorem C5_last_activity_tracks_message_witness :
    (let db : DB :=
      { users := []
        conversations :=
          [{ id := 1, user_id := 1, title := "Conversation at 12:00 AM",
             created_at := 0, updated_at := 0, extra_data := [] }]
        messages := [] }
     db.conversations.find? (fun x => x.id == 1) =
       some { id := 1, user_id := 1, title := "Conversation at 12:00 AM",
              created_at := 0, updated_at := 0, extra_data := [] } ∧
     (((add_message db 1 "user" "hi" none none 5).1).created_at = 5 ∧
      (add_message db 1 "user" "hi" none none 5).2.conversations.find?
          (fun x => x.id == 1) =
        some { id := 1, user_id := 1, title := "Conversation at 12:00 AM",
               created_at := 0, updated_at := 5, extra_data := [] } ∧
      lastMessageOf (add_message db 1 "user" "hi" none none 5).2 1 =
        some (add_message db 1 "user" "hi" none none 5).1)) := by
  have h := C5_last_activity_tracks_message
    { users := []
      conversations :=
        [{ id := 1, user_id := 1, title := "Conversation at 12:00 AM",
           created_at := 0, updated_at := 0, extra_data := [] }]
      messages := [] }
    1 "user" "hi" none none 5
    { id := 1, user_id := 1, title := "Conversation at 12:00 AM",
      created_at := 0, updated_at := 0, extra_data := [] }
    (by decide)
  exact ⟨by decide, h.1, by simpa using h.2.1, h.2.2.1⟩

theorem pickMostRecent_eq_none :
    ∀ {l : List Conversation}, pickMostRecent l = none → l = [] := by
  intro l
  cases l with
  | nil => intro _; rfl
  | cons x xs =>
    intro h
    unfold pickMostRecent at h
    cases hp : pickMostRecent xs with
    | none => rw [hp] at h; cases h
    | some d =>
      rw [hp] at h
      dsimp only at h
      by_cases hd : d.updated_at > x.updated_at
      · rw [if_pos hd] at h; cases h
      · rw [if_neg hd] at h; cases h

theorem pickMostRecent_mem :
    ∀ {l : List Conversation} {c}, pickMostRecent l = some c → c ∈ l := by
  intro l
  induction l with
  | nil => intro c h; cases h
  | cons x xs ih =>
    intro c h
    unfold pickMostRecent at h
    cases hp : pickMostRecent xs with
    | none =>
      rw [hp] at h; cases h; exact List.mem_cons_self _ _
    | some d =>
      rw [hp] at h
      dsimp only at h
      by_cases hd : d.updated_at > x.updated_at
      · rw [if_pos hd] at h; cases h; exact List.mem_cons_of_mem _ (ih hp)
      · rw [if_neg hd] at h; cases h; exact List.mem_cons_self _ _

theorem pickMostRecent_max :
    ∀ {l : List Conversation} {c}, pickMostRecent l = some c →
      ∀ x ∈ l, x.updated_at ≤ c.updated_at := by
  intro l
  induction l with
  | nil => intro c h; cases h
  | cons x xs ih =>
    intro c h y hy
    unfold pickMostRecent at h
    cases hp : pickMostRecent xs with
    | none =>
      rw [hp] at h; cases h
      have hxs := pickMostRecent_eq_none hp
      subst hxs
      rcases List.mem_cons.mp hy with h1 | h1
      · exact le_of_eq (congrArg Conversation.updated_at h1)
      · cases h1
    | some d =>
      rw [hp] at h
      dsimp only at h
      by_cases hd : d.updated_at > x.updated_at
      · rw [if_pos hd] at h; cases h
        rcases List.mem_cons.mp hy with h1 | h1
        · exact le_of_lt (h1 ▸ hd)
        · exact ih hp y h1
      · rw [if_neg hd] at h; cases h
        rcases List.mem_cons.mp hy with h1 | h1
        · exact le_of_eq (congrArg Conversation.updated_at h1)
        · exact le_trans (ih hp y h1) (le_of_not_gt hd)

/-- C7: when the user has a conversation updated inside the 2-hour active
window, get_or_create_active_conversation returns an active conversation of
maximal last-activity and leaves the database untouched; otherwise it
creates and returns a fresh conversation carrying the placeholder title,
whose last-activity is the current instant. -/
theorem C7_get_or_create_active_conversation_spec (db : DB) (uid : Nat) (now : Int) :
    ((activeConversations db uid now ≠ []) →
      (get_or_create_active_conversation db uid now).2 = db ∧
      (get_or_create_active_conversation db uid now).1 ∈ activeConversations db uid now ∧
      (∀ x ∈ activeConversations db uid now,
        x.updated_at ≤ (get_or_create_active_conversation db uid now).1.updated_at)) ∧
    ((activeConversations db uid now = []) →
      (get_or_create_active_conversation db uid now).1 = newConversation db uid now ∧
      (get_or_create_active_conversation db uid now).2.conversations =
        db.conversations ++ [newConversation db uid now] ∧
      (get_or_create_active_conversation db uid now).2.users = db.users ∧
      (get_or_create_active_conversation db uid now).2.messages = db.messages ∧
      (newConversation db uid now).title = placeholderTitle now ∧
      (newConversation db uid now).updated_at = now) := by
  cases hp : pickMostRecent (activeConversations db uid now) with
  | some c =>
    constructor
    · intro _
      unfold get_or_create_active_conversation
      rw [hp]
      exact ⟨rfl, pickMostRecent_mem hp, pickMostRecent_max hp⟩
    · intro habs
      rw [habs] at hp
      cases hp
  | none =>
    constructor
    · intro hne
      exact absurd (pickMostRecent_eq_none hp) hne
    · intro _
      unfold get_or_create_active_conversation
      rw [hp]
      exact ⟨rfl, rfl, rfl, rfl, rfl, rfl⟩

/-- Witness for C7, realizing Scenario E: the only conversation was last
active at time 0 and the call happens 3 hours (10800 seconds) later, so a
new conversation is created. -/
theorem C7_get_or_create_active_conversation_spec_witness :
    (let db : DB :=
      { users := []
        conversations :=
          [{ id := 1, user_id := 7, title := "Conversation at 12:00 AM",
             created_at := 0, updated_at := 0, extra_data := [] }]
        messages := [] }
     activeConversations db 7 10800 = [] ∧
     ((get_or_create_active_conversation db 7 10800).1 = newConversation db 7 10800 ∧
      (get_or_create_active_conversation db 7 10800).2.conversations =
        db.conversations ++ [newConversation db 7 10800] ∧
      (get_or_create_active_conversation db 7 10800).2.users = db.users ∧
      (get_or_create_active_conversation db 7 10800).2.messages = db.messages ∧
      (newConversation db 7 10800).title = placeholderTitle 10800 ∧
      (newConversation db 7 10800).updated_at = 10800)) := by
  refine ⟨by decide, ?_⟩
  exact (C7_get_or_create_active_conversation_spec
    { users := []
      conversations :=
        [{ id := 1, user_id := 7, title := "Conversation at 12:00 AM",
           created_at := 0, updated_at := 0, extra_data := [] }]
      messages := [] }
    7 10800).2 (by decide)

/-- Counterexample to C4: at a database holding no conversation at all,
add_message with conversation id 5 does not fail and does create a message
row; no NotFoundError path exists in the code. -/
theorem C4_counterexample_insert_without_conversation :
    (let db : DB := { users := [], conversations := [], messages := [] }
     db.conversations.find? (fun c => c.id == 5) = none ∧
     (add_message db 5 "user" "hello" none none 0).2.messages =
       [(add_message db 5 "user" "hello" none none 0).1] ∧
     ((add_message db 5 "user" "hello" none none 0).1).content = "hello") := by
  exact ⟨rfl, rfl, rfl⟩

/-- C4 as the code actually behaves: add_message performs no existence
check and raises nothing; when the conversation id matches no conversation
it still inserts the message row and merely skips the parent last-activity
update. -/
theorem C4_amended_insert_and_skip_update (db : DB) (cid : Nat)
    (role content : String) (afp : Option String)
    (md : Option (List (String × String))) (now : Int)
    (hfind : db.conversations.find? (fun c => c.id == cid) = none) :
    (add_message db cid role content afp md now).2.messages =
      db.messages ++ [(add_message db cid role content afp md now).1] ∧
    (add_message db cid role content afp md now).2.conversations =
      db.conversations := by
  exact ⟨rfl, updateFirst_of_find?_none _ _ hfind⟩

/-- Witness for the amended C4 at the empty database. -/
theorem C4_amended_insert_and_skip_update_witness :
    (let db : DB := { users := [], conversations := [], messages := [] }
     db.conversations.find? (fun c => c.id == 5) = none ∧
     ((add_message db 5 "user" "hi" none none 0).2.messages =
        db.messages ++ [(add_message db 5 "user" "hi" none none 0).1] ∧
      (add_message db 5 "user" "hi" none none 0).2.conversations =
        db.conversations)) := by
  exact ⟨rfl, C4_amended_insert_and_skip_update
    { users := [], conversations := [], messages := [] } 5 "user" "hi" none none 0 rfl⟩

/-! Response Generator (conversation.py, generate_gemini_response and its
helpers). The hosted language model is an external collaborator: its
behaviour on one call is an oracle value, so that every outcome of the
network interaction (exception, text-extraction error, returned text) is
covered by a case of GeminiOutcome. -/

def DEFAULT_TIMEZONE : String := "America/Toronto"

def GEMINI_MODEL : String := "gemini-2.5-flash"

/-- conversation.py generate_default_response. -/
def generate_default_response : String :=
  "I\x27m sorry, I can\x27t think right now. Please check my AI connection."

/-- Outcome of one call to the hosted Gemini model: any exception raised by
the client (network failure, authentication failure, invalid timezone and
so on), an error while extracting the text field of the response, or a
returned text. -/
inductive GeminiOutcome where
  | apiError
  | textError
  | text (s : String)
deriving DecidableEq, Repr

/-- conversation.py format_user_context: render the recognized list-valued
preference fields, or a none-specified marker. -/
def format_user_context (user_preferences : List (String × PrefValue)) : String :=
  if user_preferences.isEmpty then "None specified"
  else
    let field_mappings : List (String × String) :=
      [("interests", "Interests"), ("favourite foods", "Favorite Foods"),
       ("goals", "Goals"), ("daily routine", "Daily Routine")]
    let context_parts := field_mappings.filterMap (fun kv =>
      match (user_preferences.find? (fun p => p.1 == kv.1)).map (fun p => p.2) with
      | some (PrefValue.listv vs) =>
        if vs.isEmpty then none
        else some ("- " ++ kv.2 ++ ": " ++ String.intercalate ", " vs)
      | _ => none)
    if context_parts.isEmpty then "None specified"
    else String.intercalate "\n" context_parts

/-- One turn of the history handed to the model (role user or model, plus
the content as its single part). -/
structure ChatMsg where
  role : String
  parts : String
deriving DecidableEq, Repr

/-- conversation.py line 132: keep only the last 5 context entries, in their
original order, when more than 5 are present. -/
def limited_context (conversation_context : List CtxMsg) : List CtxMsg :=
  if conversation_context.length > 5 then
    conversation_context.drop (conversation_context.length - 5)
  else conversation_context

/-- conversation.py lines 135-142: map each context entry to a Gemini chat
turn, any role other than user becoming the model role. -/
def chat_history (ctx : List CtxMsg) : List ChatMsg :=
  ctx.map (fun msg =>
    { role := if msg.role == "user" then "user" else "model", parts := msg.content })

/-- conversation.py generate_gemini_response. The enabled flag is the
process-wide GEMINI_ENABLED value decided at startup; gemini is the oracle
for the one send_message call, applied to the truncated history and the
live user text (the system prompt merely prefixes that text). Every failure
is mapped to the default response; the function is total, so it never
raises to its caller. -/
def generate_gemini_response (enabled : Bool)
    (gemini : List ChatMsg → String → GeminiOutcome)
    (user_text : String) (conversation_context : List CtxMsg)
    (user_timezone : String) (user_preferences : List (String × PrefValue)) : String :=
  if !enabled then generate_default_response
  else
    match gemini (chat_history (limited_context conversation_context)) user_text with
    | GeminiOutcome.apiError => generate_default_response
    | GeminiOutcome.textError => generate_default_response
    | GeminiOutcome.text s =>
      let response_text := strTrim s
      if response_text = "" then generate_default_response
      else response_text

/-- A failing model interaction: an exception, a text-extraction error, or
a response whose text strips to the empty string. -/
def geminiFails : GeminiOutcome → Bool
  | GeminiOutcome.apiError => true
  | GeminiOutcome.textError => true
  | GeminiOutcome.text s => strTrim s == ""

/-- C1: for every input, whenever the component is disabled or the model
interaction fails in any way (exception covering unreachable provider,
network error and authentication failure; unparseable response; empty
response), generate_gemini_response returns exactly the fixed fallback
string; being a total function into String, it never raises to its
caller. -/
theorem C1_generate_response_fallback (enabled : Bool)
    (gemini : List ChatMsg → String → GeminiOutcome)
    (user_text : String) (ctx : List CtxMsg)
    (tz : String) (prefs : List (String × PrefValue))
    (h : enabled = false ∨
      geminiFails (gemini (chat_history (limited_context ctx)) user_text) = true) :
    generate_gemini_response enabled gemini user_text ctx tz prefs =
      generate_default_response := by
  unfold generate_gemini_response
  rcases h with h | h
  · rw [h]
    rfl
  · cases henb : enabled with
    | false => rfl
    | true =>
      simp only [Bool.not_true, Bool.false_eq_true, if_false]
      cases hg : gemini (chat_history (limited_context ctx)) user_text with
      | apiError => rfl
      | textError => rfl
      | text s =>
        rw [hg] at h
        unfold geminiFails at h
        have hs : strTrim s = "" := by simpa using h
        simp [hs]

/-- Witness for C1: the component enabled, the model reachable but
returning a whitespace-only response. -/
theorem C1_generate_response_fallback_witness :
    ((true = false ∨
      geminiFails ((fun _ _ => GeminiOutcome.text "  ")
        (chat_history (limited_context [])) "hello") = true) ∧
     generate_gemini_response true (fun _ _ => GeminiOutcome.text "  ")
       "hello" [] DEFAULT_TIMEZONE [] = generate_default_response) := by
  refine ⟨Or.inr (by decide), ?_⟩
  exact C1_generate_response_fallback true (fun _ _ => GeminiOutcome.text "  ")
    "hello" [] DEFAULT_TIMEZONE [] (Or.inr (by decide))

theorem insertByCreatedDesc_length (m : Message) :
    ∀ l : List Message, (insertByCreatedDesc m l).length = l.length + 1 := by
  intro l
  induction l with
  | nil => rfl
  | cons x xs ih =>
    unfold insertByCreatedDesc
    by_cases hx : m.created_at > x.created_at
    · rw [if_pos hx]; rfl
    · rw [if_neg hx]
      simp [ih]

theorem sortByCreatedDesc_length :
    ∀ l : List Message, (sortByCreatedDesc l).length = l.length := by
  intro l
  induction l with
  | nil => rfl
  | cons x xs ih =>
    unfold sortByCreatedDesc
    rw [insertByCreatedDesc_length, ih]
    rfl

/-- C8: a context sequence longer than 5 entries is truncated, before the
model call, to exactly its last 5 entries in their original oldest-first
order (and each is presented 1:1 as a chat turn); independently, the
orchestration-layer loader returns at most its own limit (10) entries. -/
theorem C8_context_window_caps (ctx : List CtxMsg) (db : DB) (cid : Nat)
    (h : ctx.length > 5) :
    limited_context ctx = ctx.drop (ctx.length - 5) ∧
    (limited_context ctx).length = 5 ∧
    chat_history (limited_context ctx) =
      (ctx.drop (ctx.length - 5)).map (fun msg =>
        { role := if msg.role == "user" then "user" else "model",
          parts := msg.content }) ∧
    (get_conversation_context db cid 10).length ≤ 10 := by
  have hlim : limited_context ctx = ctx.drop (ctx.length - 5) := by
    unfold limited_context
    rw [if_pos h]
  refine ⟨hlim, ?_, ?_, ?_⟩
  · rw [hlim, List.length_drop]
    omega
  · rw [hlim]
    rfl
  · unfold get_conversation_context
    rw [List.length_map, List.length_reverse, List.length_take]
    exact min_le_left _ _

/-- Witness for C8: a 7-entry context is cut to its last 5 entries. -/
theorem C8_context_window_caps_witness :
    (let ctx : List CtxMsg :=
      [{ role := "user", content := "a" }, { role := "assistant", content := "b" },
       { role := "user", content := "c" }, { role := "assistant", content := "d" },
       { role := "user", content := "e" }, { role := "assistant", content := "f" },
       { role := "user", content := "g" }]
     ctx.length > 5 ∧
     (limited_context ctx = ctx.drop (ctx.length - 5) ∧
      (limited_context ctx).length = 5 ∧
      chat_history (limited_context ctx) =
        (ctx.drop (ctx.length - 5)).map (fun msg =>
          { role := if msg.role == "user" then "user" else "model",
            parts := msg.content }) ∧
      (get_conversation_context { users := [], conversations := [], messages := [] }
        1 10).length ≤ 10)) := by
  refine ⟨by decide, ?_⟩
  exact C8_context_window_caps _ { users := [], conversations := [], messages := [] }
    1 (by decide)

/-! Speech synthesis (tts.py generate_tts) and the synthesis portion of the
voice loop (conversation.py lines 255-293). gTTS is an external
collaborator: synth n tells whether the n-th synthesis call of the turn
succeeds, and a counter of calls made so far is threaded through. -/

/-- A streaming audio response with its transport headers. -/
structure StreamResp where
  mediaType : String
  filename : String
  acceptRanges : Bool
deriving DecidableEq, Repr

/-- The value produced by the synthesis endpoint as seen by the caller; the
voice loop tests it with isinstance StreamingResponse, so a non-streaming
alternative is part of the modelled type even though generate_tts never
produces it. -/
inductive TTSValue where
  | streaming (r : StreamResp)
  | other
deriving DecidableEq, Repr

/-- tts.py generate_tts: on success, a streaming MP3 response tagged with
attachment filename sonna_output.mp3 and range support; any gTTS failure
raises (modelled as the error case). Exactly one synthesis call is made. -/
def generate_tts (synth : Nat → Bool) (k : Nat) (text : String) :
    (Except String TTSValue) × Nat :=
  if synth k then
    (Except.ok (TTSValue.streaming
      { mediaType := "audio/mpeg", filename := "sonna_output.mp3", acceptRanges := true }),
     k + 1)
  else
    (Except.error "TTS generation failed", k + 1)

/-- The transport-level tags attached to the returned audio of a turn. -/
structure TurnHeaders where
  conversationId : Option Nat
  messageId : Option Nat
  transcribedText : String
  responseText : String
  filename : String
deriving DecidableEq, Repr

/-- conversation.py lines 255-293: call generate_tts on the response text;
when it returns a streaming response, attach the turn headers and return
it; when the returned value is not a streaming response, run the in-handler
gTTS fallback whose attachment filename is sonna_response.mp3; an exception
from generate_tts propagates to the outer handler, which turns it into the
generic processing failure. -/
def tts_and_respond (synth : Nat → Bool) (k : Nat)
    (conversation_id message_id : Option Nat)
    (user_text response_text : String) : (Except String TurnHeaders) × Nat :=
  match generate_tts synth k response_text with
  | (Except.error e, k1) => (Except.error ("Voice processing failed: " ++ e), k1)
  | (Except.ok (TTSValue.streaming r), k1) =>
    (Except.ok
      { conversationId := conversation_id, messageId := message_id,
        transcribedText := strTake user_text 500,
        responseText := strTake response_text 500,
        filename := r.filename }, k1)
  | (Except.ok TTSValue.other, k1) =>
    if synth k1 then
      (Except.ok
        { conversationId := conversation_id, messageId := message_id,
          transcribedText := strTake user_text 500,
          responseText := strTake response_text 500,
          filename := "sonna_response.mp3" }, k1 + 1)
    else
      (Except.error "Voice processing failed: gTTS error", k1 + 1)

/-- Counterexample to C3: the first synthesis call fails while a second
call would succeed; the claim requires the turn to fall back and return
audio tagged sonna_response.mp3, but the code fails the turn after one
synthesis call, since generate_tts raises rather than returning a
non-streaming value. -/
theorem C3_counterexample_no_fallback :
    ((fun n => decide (0 < n)) 1 = true ∧
     tts_and_respond (fun n => decide (0 < n)) 0 (some 1) (some 2) "Hi" "Hello" =
       (Except.error "Voice processing failed: TTS generation failed", 1)) := by
  exact ⟨rfl, rfl⟩

/-- C3 as the code behaves: generate_tts either succeeds with a streaming
response whose attachment filename is sonna_output.mp3 or raises; a
synthesis failure is fatal for the turn (generic processing error) after
exactly one synthesis call, the in-handler fallback branch (same gTTS
provider, lang en, filename sonna_response.mp3) being unreachable. -/
theorem C3_amended_primary_failure_is_fatal (synth : Nat → Bool) (k : Nat)
    (cid mid : Option Nat) (user_text response_text : String) :
    (tts_and_respond synth k cid mid user_text response_text).2 = k + 1 ∧
    (∀ hd, (tts_and_respond synth k cid mid user_text response_text).1 = Except.ok hd →
      hd.filename = "sonna_output.mp3") ∧
    ((tts_and_respond synth k cid mid user_text response_text).1 =
        Except.error "Voice processing failed: TTS generation failed" ↔
      synth k = false) := by
  unfold tts_and_respond generate_tts
  cases hs : synth k with
  | false => simp
  | true => simp

/-- Witness for the amended C3 with an always-succeeding synthesizer. -/
theorem C3_amended_primary_failure_is_fatal_witness :
    ((tts_and_respond (fun _ => true) 0 (some 1) (some 2) "Hi" "Hello").2 = 1 ∧
     (∀ hd, (tts_and_respond (fun _ => true) 0 (some 1) (some 2) "Hi" "Hello").1 =
        Except.ok hd → hd.filename = "sonna_output.mp3") ∧
     ((tts_and_respond (fun _ => true) 0 (some 1) (some 2) "Hi" "Hello").1 =
        Except.error "Voice processing failed: TTS generation failed" ↔
      (fun _ : Nat => true) 0 = false)) :=
  C3_amended_primary_failure_is_fatal (fun _ => true) 0 (some 1) (some 2) "Hi" "Hello"

/-! The default-user identity resolution (user_service.py
get_or_create_default_user). -/

def DEFAULT_EMAIL : String := "smitpatel11@gmail.com"

def DEFAULT_NAME : String := "Smit Patel"

def OLD_USER_NAME : String := "Sonna User"

/-- The trailing name check of get_or_create_default_user (lines 59-63):
rename the resolved user to the default name when it differs. -/
def ensure_default_name (u : User) (users : List User) : User × List User :=
  if u.name ≠ DEFAULT_NAME then
    ({ u with name := DEFAULT_NAME },
     updateFirst (fun w => w.id == u.id)
       (fun w => { w with name := DEFAULT_NAME }) users)
  else (u, users)

/-- user_service.get_or_create_default_user acting on the user table; fresh
is the id an insert would allocate. When no user holds the default email,
the preferences of the legacy-named user seed the created user and the legacy
row is deleted; when the default user exists with empty preferences and a
legacy user holds non-empty ones, they are migrated and the legacy row is
deleted; finally the name is forced to the default. -/
def default_user_step (users : List User) (fresh : Nat) : User × List User :=
  match users.find? (fun u => u.email == DEFAULT_EMAIL) with
  | none =>
    let old := users.find? (fun u => u.name == OLD_USER_NAME)
    let initial_prefs :=
      match old with
      | some o => if !o.preferences.isEmpty then o.preferences else []
      | none => []
    let user : User :=
      { id := fresh, name := DEFAULT_NAME, email := DEFAULT_EMAIL,
        preferences := initial_prefs }
    let users1 := users ++ [user]
    let users2 :=
      match old with
      | some o => users1.filter (fun w => w.id != o.id)
      | none => users1
    ensure_default_name user users2
  | some u =>
    let base : User × List User :=
      if u.preferences.isEmpty then
        match users.find? (fun w => w.name == OLD_USER_NAME) with
        | some o =>
          if !o.preferences.isEmpty then
            ({ u with preferences := o.preferences },
             (updateFirst (fun w => w.id == u.id)
               (fun w => { w with preferences := o.preferences }) users).filter
               (fun w => w.id != o.id))
          else (u, users)
        | none => (u, users)
      else (u, users)
    ensure_default_name base.1 base.2

/-- user_service.get_or_create_default_user on the full store. -/
def get_or_create_default_user (db : DB) : User × DB :=
  ((default_user_step db.users (freshUserId db)).1,
   { db with users := (default_user_step db.users (freshUserId db)).2 })

/-! The voice turn pipeline (conversation.py voice_reasoning_loop). The
transcription service is an external collaborator: its outcome for the
turn is either a raised error or the returned text. -/

def clarification_phrase : String :=
  "I couldn\x27t catch that. Could you please repeat?"

/-- The stored timezone preference with the default applied
(conversation.py line 236); values under the timezone key are modelled as
strings. -/
def getTimezonePref (prefs : List (String × PrefValue)) : String :=
  match (prefs.find? (fun p => p.1 == "timezone")).map (fun p => p.2) with
  | some (PrefValue.str s) => s
  | _ => DEFAULT_TIMEZONE

/-- Everything a finished turn exposes: the HTTP result, the store, the
temporary-file bookkeeping, the synthesis-call counter, and the text that
was handed to synthesis (the response_text local), when one was computed. -/
structure TurnOut where
  result : Except String TurnHeaders
  db : DB
  tempPath : Option Unit
  fileExists : Bool
  nextSynthCall : Nat
  synthesizedText : Option String
deriving Repr

/-- The finally block of voice_reasoning_loop (lines 295-302): when a
temporary path was recorded and the file still exists, unlink it; a failing
unlink (unlinkOk false) is caught and logged, so cleanup itself never
raises, and a missing file is skipped by the existence test. -/
def cleanup_temp_file (temp_audio_path : Option Unit) (fileExists : Bool)
    (unlinkOk : Bool) : Bool :=
  match temp_audio_path with
  | none => fileExists
  | some _ =>
    if fileExists then (if unlinkOk then false else fileExists)
    else fileExists

/-- The try body of voice_reasoning_loop: resolve user and session, load
context, write the temporary audio, transcribe, then either short-circuit
on empty text or persist both messages around the model call, and finally
synthesize. -/
def voice_loop_core (db : DB) (now : Int) (transcript : Except String String)
    (enabled : Bool) (gemini : List ChatMsg → String → GeminiOutcome)
    (synth : Nat → Bool) (k : Nat) : TurnOut :=
  let user := (get_or_create_default_user db).1
  let db1 := (get_or_create_default_user db).2
  let conversation := (get_or_create_active_conversation db1 user.id now).1
  let db2 := (get_or_create_active_conversation db1 user.id now).2
  let context := get_conversation_context db2 conversation.id 10
  let tempPath : Option Unit := some ()
  match transcript with
  | Except.error e =>
    { result := Except.error ("Voice processing failed: " ++ e), db := db2,
      tempPath := tempPath, fileExists := true, nextSynthCall := k,
      synthesizedText := none }
  | Except.ok t =>
    let user_text := strTrim t
    if user_text = "" then
      let user_text := clarification_phrase
      let response_text := user_text
      let tr := tts_and_respond synth k (some conversation.id) none user_text response_text
      { result := tr.1, db := db2, tempPath := tempPath, fileExists := true,
        nextSynthCall := tr.2, synthesizedText := some response_text }
    else
      let um := add_message db2 conversation.id "user" user_text none
        (some [("source", "voice")]) now
      let db3 := um.2
      let db4 :=
        if context.length = 0 then
          generate_conversation_title db3 conversation.id user_text
        else db3
      let user_timezone := getTimezonePref user.preferences
      let response_text :=
        generate_gemini_response enabled gemini user_text context user_timezone
          user.preferences
      let am := add_message db4 conversation.id "assistant" response_text none
        (some [("model", GEMINI_MODEL)]) now
      let db5 := am.2
      let tr := tts_and_respond synth k (some conversation.id) (some am.1.id)
        user_text response_text
      { result := tr.1, db := db5, tempPath := tempPath, fileExists := true,
        nextSynthCall := tr.2, synthesizedText := some response_text }

/-- voice_reasoning_loop with its finally block: the cleanup step runs on
every exit path of the core. -/
def voice_reasoning_loop (db : DB) (now : Int) (transcript : Except String String)
    (enabled : Bool) (gemini : List ChatMsg → String → GeminiOutcome)
    (synth : Nat → Bool) (k : Nat) (unlinkOk : Bool) : TurnOut :=
  let core := voice_loop_core db now transcript enabled gemini synth k
  { core with
    fileExists := cleanup_temp_file core.tempPath core.fileExists unlinkOk }

theorem get_or_create_default_user_conversations (db : DB) :
    (get_or_create_default_user db).2.conversations = db.conversations := rfl

theorem get_or_create_default_user_messages (db : DB) :
    (get_or_create_default_user db).2.messages = db.messages := rfl

theorem goc_active_messages (db : DB) (uid : Nat) (now : Int) :
    (get_or_create_active_conversation db uid now).2.messages = db.messages := by
  unfold get_or_create_active_conversation
  cases hp : pickMostRecent (activeConversations db uid now) <;> rfl

theorem goc_active_conversations_superset (db : DB) (uid : Nat) (now : Int) :
    ∀ c ∈ db.conversations,
      c ∈ (get_or_create_active_conversation db uid now).2.conversations := by
  intro c hc
  unfold get_or_create_active_conversation
  cases hp : pickMostRecent (activeConversations db uid now) with
  | none => exact List.mem_append_left _ hc
  | some d => exact hc

theorem tts_and_respond_ok_fields (synth : Nat → Bool) (k : Nat)
    (cid mid : Option Nat) (ut rt : String) :
    ∀ hd, (tts_and_respond synth k cid mid ut rt).1 = Except.ok hd →
      hd = { conversationId := cid, messageId := mid,
             transcribedText := strTake ut 500, responseText := strTake rt 500,
             filename := "sonna_output.mp3" } := by
  intro hd h
  unfold tts_and_respond generate_tts at h
  cases hs : synth k with
  | false => rw [hs] at h; simp at h
  | true =>
    rw [hs] at h
    simp at h
    exact h.symm

/-- C2: a turn whose transcription succeeds with empty or whitespace-only
text responds with exactly the clarification phrase, persists no user and
no assistant message row, performs no title update, and leaves every
pre-existing conversation row (hence its title and last-activity
timestamp) untouched; when audio is returned its message id tag is empty
and the response text tag is the phrase. -/
theorem C2_empty_transcription_short_circuits (db : DB) (now : Int) (t : String)
    (enabled : Bool) (gemini : List ChatMsg → String → GeminiOutcome)
    (synth : Nat → Bool) (k : Nat) (unlinkOk : Bool)
    (h : strTrim t = "") :
    (voice_reasoning_loop db now (Except.ok t) enabled gemini synth k unlinkOk).synthesizedText =
      some clarification_phrase ∧
    (voice_reasoning_loop db now (Except.ok t) enabled gemini synth k unlinkOk).db.messages =
      db.messages ∧
    (∀ c ∈ db.conversations,
      c ∈ (voice_reasoning_loop db now (Except.ok t) enabled gemini synth k unlinkOk).db.conversations) ∧
    (∀ hd, (voice_reasoning_loop db now (Except.ok t) enabled gemini synth k unlinkOk).result =
        Except.ok hd →
      hd.responseText = clarification_phrase ∧ hd.messageId = none) := by
  refine ⟨?_, ?_, ?_, ?_⟩
  · simp [voice_reasoning_loop, voice_loop_core, h]
  · simp [voice_reasoning_loop, voice_loop_core, h, goc_active_messages,
      get_or_create_default_user_messages]
  · intro c hc
    have hmem := goc_active_conversations_superset
      (get_or_create_default_user db).2 ((get_or_create_default_user db).1).id now c hc
    simpa [voice_reasoning_loop, voice_loop_core, h] using hmem
  · intro hd hok
    simp [voice_reasoning_loop, voice_loop_core, h] at hok
    have hfields := tts_and_respond_ok_fields synth k
      (some ((get_or_create_active_conversation (get_or_create_default_user db).2
        ((get_or_create_default_user db).1).id now).1).id) none
      clarification_phrase clarification_phrase hd hok
    rw [hfields]
    refine ⟨?_, rfl⟩
    show strTake clarification_phrase 500 = clarification_phrase
    decide

/-- Witness for C2: whitespace-only transcription on an empty store. -/
theorem C2_empty_transcription_short_circuits_witness :
    (let db : DB := { users := [], conversations := [], messages := [] }
     strTrim "   " = "" ∧
     ((voice_reasoning_loop db 0 (Except.ok "   ") false
        (fun _ _ => GeminiOutcome.apiError) (fun _ => true) 0 true).synthesizedText =
        some clarification_phrase ∧
      (voice_reasoning_loop db 0 (Except.ok "   ") false
        (fun _ _ => GeminiOutcome.apiError) (fun _ => true) 0 true).db.messages =
        db.messages ∧
      (∀ hd, (voice_reasoning_loop db 0 (Except.ok "   ") false
          (fun _ _ => GeminiOutcome.apiError) (fun _ => true) 0 true).result =
          Except.ok hd →
        hd.responseText = clarification_phrase ∧ hd.messageId = none))) := by
  have h := C2_empty_transcription_short_circuits
    { users := [], conversations := [], messages := [] } 0 "   " false
    (fun _ _ => GeminiOutcome.apiError) (fun _ => true) 0 true (by decide)
  exact ⟨by decide, h.1, h.2.1, h.2.2.2⟩

theorem voice_loop_core_temp (db : DB) (now : Int) (transcript : Except String String)
    (enabled : Bool) (gemini : List ChatMsg → String → GeminiOutcome)
    (synth : Nat → Bool) (k : Nat) :
    (voice_loop_core db now transcript enabled gemini synth k).tempPath = some () ∧
    (voice_loop_core db now transcript enabled gemini synth k).fileExists = true := by
  unfold voice_loop_core
  cases transcript with
  | error e => exact ⟨rfl, rfl⟩
  | ok t =>
    constructor <;> (dsimp only; split <;> rfl)

/-- C9: with a working unlink, every exit path of a voice turn (success,
business failure or exception, this last covering a raised transcription or
synthesis error) ends with the temporary audio file deleted; the cleanup
step is a total function (exceptions from unlink are caught inside it, so
it never raises), running it twice gives the same state as running it
once, and running it when the file is already gone is a no-op. -/
theorem C9_temp_file_cleanup (db : DB) (now : Int) (transcript : Except String String)
    (enabled : Bool) (gemini : List ChatMsg → String → GeminiOutcome)
    (synth : Nat → Bool) (k : Nat) :
    (voice_reasoning_loop db now transcript enabled gemini synth k true).fileExists = false ∧
    (∀ b u, cleanup_temp_file (some ()) (cleanup_temp_file (some ()) b u) u =
      cleanup_temp_file (some ()) b u) ∧
    (∀ u, cleanup_temp_file (some ()) false u = false) := by
  refine ⟨?_, ?_, ?_⟩
  · have hcore := voice_loop_core_temp db now transcript enabled gemini synth k
    show cleanup_temp_file
      (voice_loop_core db now transcript enabled gemini synth k).tempPath
      (voice_loop_core db now transcript enabled gemini synth k).fileExists true = false
    rw [hcore.1, hcore.2]
    rfl
  · intro b u
    cases b <;> cases u <;> rfl
  · intro u
    cases u <;> rfl

/-! Lemmas for the default-user identity resolution. -/

theorem mem_le_maxUserId : ∀ {l : List User} {u : User}, u ∈ l → u.id ≤ maxUserId l := by
  intro l
  induction l with
  | nil => intro u h; cases h
  | cons x xs ih =>
    intro u h
    rcases List.mem_cons.mp h with h1 | h1
    · subst h1; exact le_max_left _ _
    · exact le_trans (ih h1) (le_max_right _ _)

theorem find?_updateFirst_by_id (p : User → Bool) (u : User) (f : User → User)
    (hp : p (f u) = p u) :
    ∀ l : List User, (l.map User.id).Nodup → l.find? p = some u →
      (updateFirst (fun w => w.id == u.id) f l).find? p = some (f u) := by
  intro l
  induction l with
  | nil => intro _ hu; cases hu
  | cons x xs ih =>
    intro hn hu
    have hn2 : (xs.map User.id).Nodup := (List.nodup_cons.mp hn).2
    have hnx : x.id ∉ xs.map User.id := (List.nodup_cons.mp hn).1
    cases hx : p x with
    | true =>
      rw [List.find?_cons_of_pos _ hx] at hu
      cases hu
      rw [updateFirst_cons_pos _ _ _ _ (by simp)]
      apply List.find?_cons_of_pos
      rw [hp]
      exact hx
    | false =>
      rw [List.find?_cons_of_neg _ (by simp [hx])] at hu
      have humem : u ∈ xs := List.mem_of_find?_eq_some hu
      have hxid : (x.id == u.id) = false := by
        have hmem : u.id ∈ xs.map User.id := List.mem_map_of_mem _ humem
        have hne : x.id ≠ u.id := fun he => hnx (he ▸ hmem)
        simpa using hne
      rw [updateFirst_cons_neg _ _ _ _ (by exact hxid)]
      rw [List.find?_cons_of_neg _ (by simp [hx])]
      exact ih hn2 hu

theorem find?_filter_keep {α : Type} (p q : α → Bool) :
    ∀ {l : List α} {a : α}, l.find? p = some a → q a = true →
      (l.filter q).find? p = some a := by
  intro l
  induction l with
  | nil => intro a h _; cases h
  | cons x xs ih =>
    intro a h hq
    cases hx : p x with
    | true =>
      rw [List.find?_cons_of_pos _ hx] at h
      cases h
      have hfil : (x :: xs).filter q = x :: xs.filter q := by
        simp [List.filter_cons, hq]
      rw [hfil, List.find?_cons_of_pos _ hx]
    | false =>
      rw [List.find?_cons_of_neg _ (by simp [hx])] at h
      cases hqx : q x with
      | true =>
        have hfil : (x :: xs).filter q = x :: xs.filter q := by
          simp [List.filter_cons, hqx]
        rw [hfil, List.find?_cons_of_neg _ (by simp [hx])]
        exact ih h hq
      | false =>
        have hfil : (x :: xs).filter q = xs.filter q := by
          simp [List.filter_cons, hqx]
        rw [hfil]
        exact ih h hq

theorem map_userId_updateFirst (p : User → Bool) (f : User → User)
    (hf : ∀ w, (f w).id = w.id) :
    ∀ l : List User, (updateFirst p f l).map User.id = l.map User.id := by
  intro l
  induction l with
  | nil => rfl
  | cons x xs ih =>
    cases hx : p x with
    | true =>
      rw [updateFirst_cons_pos _ _ _ _ hx]
      simp [hf]
    | false =>
      rw [updateFirst_cons_neg _ _ _ _ hx]
      simp [ih]

theorem filter_ne_id_all (o : User) (l : List User) :
    ∀ w ∈ l.filter (fun w => w.id != o.id), w.id ≠ o.id := by
  intro w hw
  have h1 := (List.mem_filter.mp hw).2
  exact bne_iff_ne.mp h1

theorem mem_map_id_ne (o : User) (l : List User)
    (hall : ∀ w ∈ l, w.id ≠ o.id) (l2 : List User)
    (hmap : l2.map User.id = l.map User.id) :
    ∀ w ∈ l2, w.id ≠ o.id := by
  intro w hw
  have hwid : w.id ∈ l2.map User.id := List.mem_map_of_mem _ hw
  rw [hmap] at hwid
  rcases List.mem_map.mp hwid with ⟨v, hv, hvid⟩
  rw [← hvid]
  exact hall v hv

theorem ensure_default_name_spec (u : User) (l : List User)
    (hn : (l.map User.id).Nodup)
    (hfind : l.find? (fun w => w.email == DEFAULT_EMAIL) = some u) :
    ((ensure_default_name u l).1).name = DEFAULT_NAME ∧
    ((ensure_default_name u l).1).email = u.email ∧
    (ensure_default_name u l).2.find? (fun w => w.email == DEFAULT_EMAIL) =
      some (ensure_default_name u l).1 ∧
    (ensure_default_name u l).2.map User.id = l.map User.id := by
  unfold ensure_default_name
  by_cases hname : u.name ≠ DEFAULT_NAME
  · rw [if_pos hname]
    dsimp only
    refine ⟨rfl, rfl, ?_, ?_⟩
    · exact find?_updateFirst_by_id _ u _ rfl l hn hfind
    · exact map_userId_updateFirst _ (fun w => { w with name := DEFAULT_NAME })
        (fun w => rfl) l
  · rw [if_neg hname]
    dsimp only
    exact ⟨not_ne_iff.mp hname, rfl, hfind, rfl⟩

/-- The legacy row that one get_or_create_default_user call deletes, when
any: with no default-email user, any first user named Sonna User; with a
default-email user holding empty preferences, the first Sonna User holding
non-empty preferences. -/
def migrationSource (users : List User) : Option User :=
  match users.find? (fun u => u.email == DEFAULT_EMAIL) with
  | none => users.find? (fun u => u.name == OLD_USER_NAME)
  | some u =>
    if u.preferences.isEmpty then
      match users.find? (fun w => w.name == OLD_USER_NAME) with
      | some o => if !o.preferences.isEmpty then some o else none
      | none => none
    else none

theorem resolved_spec (u0 : User) (l0 : List User)
    (hemail : u0.email = DEFAULT_EMAIL)
    (hn0 : (l0.map User.id).Nodup)
    (hfind0 : l0.find? (fun w => w.email == DEFAULT_EMAIL) = some u0) :
    ((ensure_default_name u0 l0).1).name = DEFAULT_NAME ∧
    ((ensure_default_name u0 l0).1).email = DEFAULT_EMAIL ∧
    (ensure_default_name u0 l0).2.find? (fun w => w.email == DEFAULT_EMAIL) =
      some (ensure_default_name u0 l0).1 ∧
    (∀ o : User, (∀ w ∈ l0, w.id ≠ o.id) →
      ∀ w ∈ (ensure_default_name u0 l0).2, w.id ≠ o.id) := by
  have hens := ensure_default_name_spec u0 l0 hn0 hfind0
  refine ⟨hens.1, ?_, hens.2.2.1, ?_⟩
  · rw [hens.2.1]
    exact hemail
  · intro o hall
    exact mem_map_id_ne o l0 hall _ hens.2.2.2

theorem nodup_append_new (us : List User) (nu : User)
    (hn : (us.map User.id).Nodup) (hfr : ∀ w ∈ us, w.id < nu.id) :
    ((us ++ [nu]).map User.id).Nodup := by
  rw [List.map_append, List.nodup_append]
  refine ⟨hn, List.nodup_singleton _, ?_⟩
  intro a ha hb
  rcases List.mem_map.mp ha with ⟨v, hv, hvid⟩
  have hafr : a = nu.id := by simpa using hb
  subst hafr
  exact absurd (hvid ▸ hfr v hv) (lt_irrefl _)

theorem find?_append_new (us : List User) (nu : User)
    (hfe : us.find? (fun w => w.email == DEFAULT_EMAIL) = none)
    (hnu : (nu.email == DEFAULT_EMAIL) = true) :
    (us ++ [nu]).find? (fun w => w.email == DEFAULT_EMAIL) = some nu := by
  rw [List.find?_append, hfe]
  simp [hnu]

theorem find?_append_new_filter (us : List User) (nu o : User)
    (hfe : us.find? (fun w => w.email == DEFAULT_EMAIL) = none)
    (hnu : (nu.email == DEFAULT_EMAIL) = true)
    (hnuo : nu.id ≠ o.id) :
    ((us ++ [nu]).filter (fun w => w.id != o.id)).find?
      (fun w => w.email == DEFAULT_EMAIL) = some nu := by
  rw [List.filter_append]
  have hone : [nu].filter (fun w => w.id != o.id) = [nu] := by
    simp [List.filter_cons, bne_iff_ne.mpr hnuo]
  rw [hone, List.find?_append]
  have hnone : (us.filter (fun w => w.id != o.id)).find?
      (fun w => w.email == DEFAULT_EMAIL) = none := by
    apply List.find?_eq_none.mpr
    intro w hw
    exact List.find?_eq_none.mp hfe w (List.mem_of_mem_filter hw)
  rw [hnone]
  simp [hnu]

theorem nodup_filter_map_id (l : List User) (q : User → Bool)
    (hn : (l.map User.id).Nodup) : ((l.filter q).map User.id).Nodup :=
  hn.sublist ((List.filter_sublist l).map User.id)

theorem default_user_step_spec (us : List User) (fr : Nat)
    (hn : (us.map User.id).Nodup) (hfr : ∀ w ∈ us, w.id < fr) :
    ((default_user_step us fr).1).name = DEFAULT_NAME ∧
    ((default_user_step us fr).1).email = DEFAULT_EMAIL ∧
    (default_user_step us fr).2.find? (fun w => w.email == DEFAULT_EMAIL) =
      some (default_user_step us fr).1 ∧
    (∀ o, migrationSource us = some o →
      ∀ w ∈ (default_user_step us fr).2, w.id ≠ o.id) := by
  unfold default_user_step migrationSource
  cases hfe : us.find? (fun u => u.email == DEFAULT_EMAIL) with
  | none =>
    cases hold : us.find? (fun u => u.name == OLD_USER_NAME) with
    | none =>
      dsimp only
      have h := resolved_spec
        { id := fr, name := DEFAULT_NAME, email := DEFAULT_EMAIL, preferences := [] }
        (us ++
          [{ id := fr, name := DEFAULT_NAME, email := DEFAULT_EMAIL,
             preferences := [] }])
        rfl
        (nodup_append_new us _ hn hfr)
        (find?_append_new us _ hfe (by simp))
      exact ⟨h.1, h.2.1, h.2.2.1, fun o ho => Option.noConfusion ho⟩
    | some o =>
      dsimp only
      have homem : o ∈ us := List.mem_of_find?_eq_some hold
      have hoid : o.id < fr := hfr o homem
      have h := resolved_spec
        { id := fr, name := DEFAULT_NAME, email := DEFAULT_EMAIL,
          preferences := if !o.preferences.isEmpty then o.preferences else [] }
        ((us ++
          [({ id := fr, name := DEFAULT_NAME, email := DEFAULT_EMAIL,
              preferences := if !o.preferences.isEmpty then o.preferences
                else [] } : User)]).filter (fun w => w.id != o.id))
        rfl
        (nodup_filter_map_id _ _ (nodup_append_new us
          { id := fr, name := DEFAULT_NAME, email := DEFAULT_EMAIL,
            preferences := if !o.preferences.isEmpty then o.preferences else [] }
          hn hfr))
        (find?_append_new_filter us
          { id := fr, name := DEFAULT_NAME, email := DEFAULT_EMAIL,
            preferences := if !o.preferences.isEmpty then o.preferences else [] }
          o hfe (by simp) (by show fr ≠ o.id; omega))
      refine ⟨h.1, h.2.1, h.2.2.1, ?_⟩
      intro o2 ho2
      cases ho2
      exact h.2.2.2 o (filter_ne_id_all o _)
  | some u =>
    have huemail : u.email = DEFAULT_EMAIL := by
      have := List.find?_some hfe
      exact eq_of_beq (by simpa using this)
    have humem : u ∈ us := List.mem_of_find?_eq_some hfe
    cases hpe : u.preferences.isEmpty with
    | false =>
      simp only [hpe, Bool.false_eq_true, if_false]
      have h := resolved_spec u us huemail hn hfe
      exact ⟨h.1, h.2.1, h.2.2.1, fun o ho => Option.noConfusion ho⟩
    | true =>
      simp only [hpe, if_true]
      cases hold : us.find? (fun w => w.name == OLD_USER_NAME) with
      | none =>
        have h := resolved_spec u us huemail hn hfe
        exact ⟨h.1, h.2.1, h.2.2.1, fun o ho => Option.noConfusion ho⟩
      | some o =>
        have homem : o ∈ us := List.mem_of_find?_eq_some hold
        cases hop : o.preferences.isEmpty with
        | true =>
          simp only [hop, Bool.not_true, Bool.false_eq_true, if_false]
          have h := resolved_spec u us huemail hn hfe
          exact ⟨h.1, h.2.1, h.2.2.1, fun o2 ho2 => Option.noConfusion ho2⟩
        | false =>
          simp only [hop, Bool.not_false, if_true]
          have huo : u ≠ o := by
            intro he
            rw [he, hop] at hpe
            cases hpe
          have huoid : u.id ≠ o.id :=
            fun he => huo (List.inj_on_of_nodup_map hn humem homem he)
          have h := resolved_spec
            { u with preferences := o.preferences }
            ((updateFirst (fun w => w.id == u.id)
              (fun w => { w with preferences := o.preferences }) us).filter
              (fun w => w.id != o.id))
            huemail
            (nodup_filter_map_id _ _
              (by rw [map_userId_updateFirst _
                  (fun w => { w with preferences := o.preferences })
                  (fun w => rfl) us]
                  exact hn))
            (find?_filter_keep _ _
              (find?_updateFirst_by_id _ u _ rfl us hn hfe)
              (bne_iff_ne.mpr huoid))
          refine ⟨h.1, h.2.1, h.2.2.1, ?_⟩
          intro o2 ho2
          cases ho2
          exact h.2.2.2 o (filter_ne_id_all o _)

/-- C10: for every user table with distinct row ids, one identity
resolution call returns a user named Smit Patel with the default email,
the stored row found under that email carries that name after the call
(the rename applying whenever the name differed), and whenever the call
migrates or absorbs a legacy Sonna User row, that row is deleted from the
table. -/
theorem C10_default_user_resolution (db : DB)
    (hn : (db.users.map User.id).Nodup) :
    ((get_or_create_default_user db).1).name = DEFAULT_NAME ∧
    ((get_or_create_default_user db).1).email = DEFAULT_EMAIL ∧
    (get_or_create_default_user db).2.users.find? (fun w => w.email == DEFAULT_EMAIL) =
      some (get_or_create_default_user db).1 ∧
    (∀ o, migrationSource db.users = some o →
      ∀ w ∈ (get_or_create_default_user db).2.users, w.id ≠ o.id) := by
  have hfr : ∀ w ∈ db.users, w.id < freshUserId db := by
    intro w hw
    exact Nat.lt_succ_of_le (mem_le_maxUserId hw)
  exact default_user_step_spec db.users (freshUserId db) hn hfr

/-- Witness for C10: a store holding only a legacy Sonna User row with
preferences; the call creates the default user, migrates the preferences
and deletes the legacy row. -/
theorem C10_default_user_resolution_witness :
    (let db : DB :=
      { users := [{ id := 3, name := "Sonna User", email := "old@example.com",
                    preferences := [("interests", PrefValue.listv ["music"])] }]
        conversations := [], messages := [] }
     (db.users.map User.id).Nodup ∧
     (((get_or_create_default_user db).1).name = DEFAULT_NAME ∧
      ((get_or_create_default_user db).1).email = DEFAULT_EMAIL ∧
      (get_or_create_default_user db).2.users.find?
          (fun w => w.email == DEFAULT_EMAIL) =
        some (get_or_create_default_user db).1 ∧
      (∀ o, migrationSource db.users = some o →
        ∀ w ∈ (get_or_create_default_user db).2.users, w.id ≠ o.id))) := by
  exact ⟨by decide, C10_default_user_resolution
    { users := [{ id := 3, name := "Sonna User", email := "old@example.com",
                  preferences := [("interests", PrefValue.listv ["music"])] }]
      conversations := [], messages := [] }
    (by decide)⟩

end Sonna
